import Mathlib

/-!
Verification of the focus-stack task scheduler and valid-region bookkeeping
(`worker.hh`, `task_loadimg.cc`, `task_saveimg.cc`), as a shallow embedding.

Pixel buffers (`cv::Mat`) are modelled as a size plus a total pixel function;
rectangles (`cv::Rect`) keep their four `int` fields as `Int`.  Clock reads and
filesystem probes become explicit oracle parameters.
-/

namespace FocusStack

/-- `cv::Rect`: integer x, y, width, height. -/
structure Rect where
  x : Int
  y : Int
  width : Int
  height : Int
deriving DecidableEq, Repr

/-- Point membership of a `cv::Rect`, viewed as the half-open box
`[x, x+width) × [y, y+height)`. -/
def Rect.mem (r : Rect) (px py : Int) : Prop :=
  r.x ≤ px ∧ px < r.x + r.width ∧ r.y ≤ py ∧ py < r.y + r.height

instance (r : Rect) (px py : Int) : Decidable (r.mem px py) := by
  unfold Rect.mem; infer_instance

/-- `cv::Mat`: a rows × cols pixel grid.  `pix r c` is the pixel at row `r`,
column `c`; values outside the bounds are irrelevant junk. -/
structure Mat where
  rows : Nat
  cols : Nat
  pix : Nat → Nat → Int

/-- Pixel-for-pixel equality of two buffers: same dimensions and equal pixels
everywhere inside the bounds. -/
def Mat.eqPix (a b : Mat) : Prop :=
  a.rows = b.rows ∧ a.cols = b.cols ∧
    ∀ r < a.rows, ∀ c < a.cols, a.pix r c = b.pix r c

instance (a b : Mat) : Decidable (a.eqPix b) := by
  unfold Mat.eqPix; infer_instance

namespace ImgTask

/-- `ImgTask::has_valid_area`: the stored valid-area rectangle is set iff both
its width and height are nonzero. -/
def has_valid_area (v : Rect) : Bool :=
  v.width != 0 && v.height != 0

/-- `ImgTask::valid_area`: the stored rectangle if set, else the full extent
of the result buffer. -/
def valid_area (v : Rect) (result : Mat) : Rect :=
  if ¬ has_valid_area v then
    ⟨0, 0, (result.cols : Int), (result.rows : Int)⟩
  else
    v

/-- The clamping step of `ImgTask::extract_original_area`: force `safeRect`
inside the bounds of the given buffer (`std::max`/`std::min` arithmetic on
`int`, taken verbatim from the source). -/
def safeRect (v : Rect) (img : Mat) : Rect :=
  let sx : Int := max 0 (min v.x ((img.cols : Int) - 1))
  let sy : Int := max 0 (min v.y ((img.rows : Int) - 1))
  let sw : Int := min v.width ((img.cols : Int) - sx)
  let sh : Int := min v.height ((img.rows : Int) - sy)
  ⟨sx, sy, sw, sh⟩

/-- `expanded_img(safeRect).clone()`: a fresh buffer holding exactly the
pixels of `r` inside `img`. -/
def cropClone (img : Mat) (r : Rect) : Mat :=
  ⟨r.height.toNat, r.width.toNat,
   fun row col => img.pix (r.y.toNat + row) (r.x.toNat + col)⟩

/-- `ImgTask::extract_original_area(expanded_img)`: identity when no valid
area is set or the valid area covers the whole buffer; otherwise a deep copy
of the clamped valid area. -/
def extract_original_area (v : Rect) (expanded_img : Mat) : Mat :=
  if ¬ has_valid_area v then
    expanded_img
  else if v.x = 0 ∧ v.y = 0 ∧ v.width = (expanded_img.cols : Int) ∧
          v.height = (expanded_img.rows : Int) then
    expanded_img
  else
    cropClone expanded_img (safeRect v expanded_img)

/-- `ImgTask::img_cropped`: extract the valid area when it is strictly
smaller than the buffer, else return the buffer unchanged. -/
def img_cropped (v : Rect) (result : Mat) : Mat :=
  if has_valid_area v ∧ (v.x > 0 ∨ v.y > 0 ∨ v.width < (result.cols : Int) ∨
      v.height < (result.rows : Int)) then
    extract_original_area v result
  else
    result

/-- `ImgTask::limit_valid_area(other)`: the new stored valid area, computed
from the current one by the coordinate-wise max/min formula of the source. -/
def limit_valid_area (v other : Rect) : Rect :=
  let x0 := max v.x other.x
  let y0 := max v.y other.y
  let x1 := min (v.x + v.width) (other.x + other.width)
  let y1 := min (v.y + v.height) (other.y + other.height)
  ⟨x0, y0, x1 - x0, y1 - y0⟩

/-- Modelled from the spec: the intersection `limit_valid_area` is claimed to
compute — "intersects the current valid rectangle with another rectangle",
where an unset current region "means the entire buffer" (of dimensions
`bufCols × bufRows`). -/
def spec_limit_valid_area (bufCols bufRows : Nat) (v other : Rect) : Rect :=
  let cur := if ¬ has_valid_area v then
               ⟨0, 0, (bufCols : Int), (bufRows : Int)⟩
             else v
  let x0 := max cur.x other.x
  let y0 := max cur.y other.y
  let x1 := min (cur.x + cur.width) (other.x + other.width)
  let y1 := min (cur.y + cur.height) (other.y + other.height)
  ⟨x0, y0, x1 - x0, y1 - y0⟩

end ImgTask

namespace LoadImg

/-- `cv::borderInterpolate(p, len, BORDER_REFLECT)`: the reflected in-range
index for a possibly out-of-range coordinate `p`.  Written in closed form via
the period-`2*len` sawtooth; it agrees with OpenCV's iterative clamping, and
on in-range `p` it is the identity. -/
def reflectIdx (p : Int) (len : Nat) : Nat :=
  if len = 0 then 0
  else
    let m := (p % (2 * (len : Int))).toNat
    if m < len then m else 2 * len - 1 - m

/-- `cv::copyMakeBorder(src, ·, top, bottom, left, right, BORDER_REFLECT)`:
the bordered buffer, each pixel read back from `src` through reflected
indices.  Interior pixels (offset by `top`, `left`) are the source pixels. -/
def copyMakeBorderReflect (src : Mat) (top bottom left right : Nat) : Mat :=
  ⟨src.rows + top + bottom, src.cols + left + right,
   fun r c => src.pix (reflectIdx ((r : Int) - (top : Int)) src.rows)
                      (reflectIdx ((c : Int) - (left : Int)) src.cols)⟩

/-- The padding step of `Task_LoadImg::task` (lines 85-102): if the wavelet
`expanded` size differs from the decoded size, reflect-pad the buffer with the
extra rows/columns split as `k/2` before and `k - k/2` after, and place the
valid area at `(expand_x/2, expand_y/2)` with the original size; otherwise
keep the decoded buffer and the full-extent valid area set on line 69. -/
def loadimg_pad (orig : Mat) (expandedW expandedH : Nat) : Mat × Rect :=
  if expandedW ≠ orig.cols ∨ expandedH ≠ orig.rows then
    let expand_x := expandedW - orig.cols
    let expand_y := expandedH - orig.rows
    let tmp := copyMakeBorderReflect orig
                 (expand_y / 2) (expand_y - expand_y / 2)
                 (expand_x / 2) (expand_x - expand_x / 2)
    (tmp, ⟨(expand_x / 2 : Nat), (expand_y / 2 : Nat),
           (orig.cols : Int), (orig.rows : Int)⟩)
  else
    (orig, ⟨0, 0, (orig.cols : Int), (orig.rows : Int)⟩)

/-- The decode-retry loop of `Task_LoadImg::task` (lines 56-60): while no
image was decoded and the current time is before the deadline, sleep 100 ms
and call `imread` again.  `imread` is the decode oracle indexed by the time of
the attempt; time is idealised so each iteration advances exactly 100 ms. -/
def loadLoop (imread : Int → Option Mat) (deadline : Int)
    (t : Int) (cur : Option Mat) : Int × Option Mat :=
  match cur with
  | some m => (t, some m)
  | none =>
    if h : t < deadline then
      loadLoop imread deadline (t + 100) (imread (t + 100))
    else
      (t, none)
termination_by (deadline - t).toNat
decreasing_by
  omega

/-- The decode phase of `Task_LoadImg::task` (lines 51-65): initial `imread`
at time `t0`, the retry loop, then either the decoded image or the
`"Could not load " + filename` failure. -/
def loadimg_decode (imread : Int → Option Mat) (deadline t0 : Int)
    (filename : String) : Except String Mat :=
  let first := imread t0
  match (loadLoop imread deadline t0 first).2 with
  | some m => Except.ok m
  | none => Except.error ("Could not load " ++ filename)

/-- The time of the k-th decode attempt: the initial `imread` at `t0`, each
retry 100 ms later. -/
def attemptTime (t0 : Int) (k : Nat) : Int := t0 + 100 * k

/-- Modelled from the spec: the base `Task::ready_to_run` (implemented in
`task.cc`, which is not among the sources) — "true iff every dependency
reports `is_completed()`".  The argument lists each dependency's
`is_completed()` value. -/
def task_ready_to_run (deps_completed : List Bool) : Bool :=
  deps_completed.all id

/-- The inputs `Task_LoadImg::ready_to_run` reads besides the dependency
list: the configured wait window (seconds, `m_wait_images`), the clock
comparison `now < m_wait_images_until`, and the `std::ifstream` probe
`f.good()` on the target file. -/
structure ReadyCtx where
  deps_completed : List Bool
  wait_images : ℚ
  now_lt_deadline : Bool
  file_good : Bool

/-- `Task_LoadImg::ready_to_run` (lines 28-47): false when the base check
fails; additionally false while a positive wait window has not elapsed and
the target file cannot be opened. -/
def loadimg_ready_to_run (c : ReadyCtx) : Bool :=
  if ¬ task_ready_to_run c.deps_completed then
    false
  else if c.wait_images > 0 ∧ c.now_lt_deadline ∧ ¬ c.file_good then
    false
  else
    true

end LoadImg

namespace SaveImg

open ImgTask

/-- The geometry portion of `Task_SaveImg::task` (lines 33-72): computes the
result buffer and the task's new valid area from the save task's own stored
valid area (`this->m_valid_area`, read by `has_valid_area()` and
`extract_original_area`), the input's buffer, and the input's stored valid
area (read through `m_input->valid_area()` and `m_input->img_cropped()`). -/
def saveimg_geometry (own_valid : Rect) (inputImg : Mat) (input_valid : Rect)
    (nocrop : Bool) : Mat × Rect :=
  let validArea := valid_area input_valid inputImg
  if nocrop then
    if has_valid_area own_valid ∧ (validArea.x > 0 ∨ validArea.y > 0 ∨
        validArea.width < (inputImg.cols : Int) ∨
        validArea.height < (inputImg.rows : Int)) then
      let res := extract_original_area own_valid inputImg
      (res, ⟨0, 0, (res.cols : Int), (res.rows : Int)⟩)
    else
      (inputImg, validArea)
  else
    let res := img_cropped input_valid inputImg
    (res, ⟨0, 0, (res.cols : Int), (res.rows : Int)⟩)

/-- `Task_SaveImg::task` as invoked on a freshly constructed task: the
constructor never touches `m_valid_area`, so the task's own valid area is the
default `cv::Rect()`, all zeroes. -/
def saveimg_task_geometry (inputImg : Mat) (input_valid : Rect)
    (nocrop : Bool) : Mat × Rect :=
  saveimg_geometry ⟨0, 0, 0, 0⟩ inputImg input_valid nocrop

/-- The file-output step of `Task_SaveImg::task` (lines 122-128): `imwrite`
at the configured JPEG quality exactly when the filename is neither empty nor
the `":memory:"` sentinel; `none` means no file I/O happened and the
composited buffer lives on only as `m_result`. -/
def saveimg_file_output (filename : String) (jpgquality : Int)
    (result : Mat) : Option (String × Int × Mat) :=
  if filename ≠ "" ∧ filename ≠ ":memory:" then
    some (filename, jpgquality, result)
  else
    none

end SaveImg

namespace Worker

/-- Modelled from the spec: a task as the Worker scheduler sees it (the
Worker implementation `worker.cc` is not among the sources; only `worker.hh`
declares it).  `opencl` is the task's `uses_opencl()`, `deps` the indices of
the tasks it depends on. -/
structure WTask where
  tid : Nat
  opencl : Bool
  deps : List Nat
deriving DecidableEq, Repr

/-- Modelled from the spec: the Worker's shared state — pending queue,
running set, ids of completed tasks, and the running-resource counter
`m_opencl_users`. -/
structure WState where
  pending : List WTask
  running : List WTask
  completed : List Nat
  opencl_users : Nat
deriving DecidableEq, Repr

/-- Modelled from the spec: `ready_to_run` as the scheduler sees it — every
dependency completed. -/
def readyW (s : WState) (t : WTask) : Bool :=
  t.deps.all (fun d => s.completed.contains d)

/-- Modelled from the spec, §4.5 scheduling loop: a thread may start a
pending task whose dependencies are completed, provided that an
`uses_opencl()` task only starts while the resource counter is below the
fixed cap (incrementing the counter); and a running task may finish, joining
the completed set and releasing its resource slot. -/
inductive WStep (cap : Nat) : WState → WState → Prop
  | start (s : WState) (t : WTask) (pre post : List WTask)
      (hq : s.pending = pre ++ t :: post)
      (hready : readyW s t = true)
      (hcap : t.opencl = true → s.opencl_users < cap) :
      WStep cap s ⟨pre ++ post, t :: s.running, s.completed,
                   s.opencl_users + (if t.opencl then 1 else 0)⟩
  | finish (s : WState) (t : WTask) (pre post : List WTask)
      (hr : s.running = pre ++ t :: post) :
      WStep cap s ⟨s.pending, pre ++ post, t.tid :: s.completed,
                   s.opencl_users - (if t.opencl then 1 else 0)⟩

/-- States the scheduler can reach from a given state. -/
inductive Reachable (cap : Nat) : WState → WState → Prop
  | refl (s : WState) : Reachable cap s s
  | step {s u v : WState} : Reachable cap s u → WStep cap u v →
      Reachable cap s v

/-- The Worker's state right after the tasks are submitted: nothing running,
nothing completed, resource counter zero. -/
def initState (tasks : List WTask) : WState :=
  ⟨tasks, [], [], 0⟩

/-- Scheduler invariant: the resource counter counts exactly the running
tasks that use the constrained resource, and never exceeds the cap. -/
def WInv (cap : Nat) (s : WState) : Prop :=
  s.opencl_users = (s.running.filter (fun t => t.opencl)).length ∧
  s.opencl_users ≤ cap

end Worker

/-- A concrete 3×3 buffer with distinct pixels, for witnesses. -/
def demoMat : Mat := ⟨3, 3, fun r c => ((3 * r + c : Nat) : Int)⟩

/-- A concrete 4×4 buffer with distinct pixels. -/
def bugMat : Mat := ⟨4, 4, fun r c => ((4 * r + c : Nat) : Int)⟩

/-- A valid area strictly inside `bugMat`. -/
def bugRect : Rect := ⟨1, 1, 2, 2⟩

/-- An OpenCL-using task with no dependencies. -/
def tA : Worker.WTask := ⟨0, true, []⟩

/-- A second OpenCL-using task with no dependencies. -/
def tB : Worker.WTask := ⟨1, true, []⟩

end FocusStack

namespace FocusStack

open ImgTask LoadImg SaveImg Worker

/-! ## Valid-region lemmas -/

/-- Claim C4 (amended): `limit_valid_area` stores the coordinate-wise
max/min rectangle; point-for-point this is the intersection of the literally
stored current rectangle with the argument — the unset region acts as the
degenerate zero rectangle at the origin, not as the entire buffer. -/
theorem limit_valid_area_pointwise (v other : Rect) (px py : Int) :
    Rect.mem (limit_valid_area v other) px py ↔
      Rect.mem v px py ∧ Rect.mem other px py := by
  unfold ImgTask.limit_valid_area Rect.mem
  dsimp only
  omega

/-- Claim C4 (counterexample): with the current valid region unset, the code
intersects with the zero rectangle, not with the entire 20×20 buffer as the
claim demands, so the point (6,6) inside the argument rectangle is lost. -/
theorem limit_valid_area_unset_counterexample :
    limit_valid_area ⟨0, 0, 0, 0⟩ ⟨5, 5, 10, 10⟩ = ⟨5, 5, -5, -5⟩ ∧
    spec_limit_valid_area 20 20 ⟨0, 0, 0, 0⟩ ⟨5, 5, 10, 10⟩ = ⟨5, 5, 10, 10⟩ ∧
    ¬ Rect.mem (limit_valid_area ⟨0, 0, 0, 0⟩ ⟨5, 5, 10, 10⟩) 6 6 ∧
    Rect.mem (spec_limit_valid_area 20 20 ⟨0, 0, 0, 0⟩ ⟨5, 5, 10, 10⟩) 6 6 := by
  refine ⟨rfl, rfl, by decide, by decide⟩

/-- Claim C7: `extract_original_area` returns the input buffer itself when no
valid area is set or the set area has origin (0,0) and exactly the buffer's
dimensions; otherwise it returns the fresh copy of the clamped valid area. -/
theorem extract_original_area_cases (v : Rect) (img : Mat) :
    (¬ has_valid_area v → extract_original_area v img = img) ∧
    (has_valid_area v →
      (v.x = 0 ∧ v.y = 0 ∧ v.width = (img.cols : Int) ∧
        v.height = (img.rows : Int)) →
      extract_original_area v img = img) ∧
    (has_valid_area v →
      ¬ (v.x = 0 ∧ v.y = 0 ∧ v.width = (img.cols : Int) ∧
        v.height = (img.rows : Int)) →
      extract_original_area v img = cropClone img (safeRect v img)) := by
  unfold ImgTask.extract_original_area
  split_ifs with h1 h2
  · exact ⟨fun hn => absurd h1 hn, fun _ _ => rfl, fun _ hnc => absurd h2 hnc⟩
  · exact ⟨fun hn => absurd h1 hn, fun _ hc => absurd hc h2, fun _ _ => rfl⟩
  · exact ⟨fun _ => rfl, fun hv _ => absurd hv h1, fun hv _ => absurd hv h1⟩

/-- Witness for C7: all three behaviours of `extract_original_area` observed
on concrete inputs. -/
theorem extract_original_area_cases_witness :
    extract_original_area ⟨0, 0, 0, 0⟩ demoMat = demoMat ∧
    extract_original_area ⟨0, 0, 3, 3⟩ demoMat = demoMat ∧
    extract_original_area ⟨1, 1, 2, 2⟩ demoMat =
      cropClone demoMat (safeRect ⟨1, 1, 2, 2⟩ demoMat) :=
  ⟨(extract_original_area_cases ⟨0, 0, 0, 0⟩ demoMat).1 (by decide),
   (extract_original_area_cases ⟨0, 0, 3, 3⟩ demoMat).2.1 (by decide)
     (by refine ⟨rfl, rfl, by decide, by decide⟩),
   (extract_original_area_cases ⟨1, 1, 2, 2⟩ demoMat).2.2 (by decide)
     (by decide)⟩

/-- Claim C10: for a stored valid area with positive width and height and a
non-empty buffer, the clamped rectangle lies entirely inside the buffer. -/
theorem safeRect_within_bounds (v : Rect) (img : Mat)
    (hw : 0 < v.width) (hh : 0 < v.height)
    (hr : 0 < img.rows) (hc : 0 < img.cols) :
    0 ≤ (safeRect v img).x ∧ 0 ≤ (safeRect v img).y ∧
    (safeRect v img).x + (safeRect v img).width ≤ (img.cols : Int) ∧
    (safeRect v img).y + (safeRect v img).height ≤ (img.rows : Int) := by
  unfold ImgTask.safeRect
  dsimp only
  omega

/-- Witness for C10: a stored region extending far past a 3×3 buffer is
clamped inside it. -/
theorem safeRect_within_bounds_witness :
    0 ≤ (safeRect ⟨5, -3, 100, 50⟩ demoMat).x ∧
    0 ≤ (safeRect ⟨5, -3, 100, 50⟩ demoMat).y ∧
    (safeRect ⟨5, -3, 100, 50⟩ demoMat).x +
      (safeRect ⟨5, -3, 100, 50⟩ demoMat).width ≤ (demoMat.cols : Int) ∧
    (safeRect ⟨5, -3, 100, 50⟩ demoMat).y +
      (safeRect ⟨5, -3, 100, 50⟩ demoMat).height ≤ (demoMat.rows : Int) :=
  safeRect_within_bounds ⟨5, -3, 100, 50⟩ demoMat
    (by decide) (by decide) (by decide) (by decide)

/-! ## Task_SaveImg -/

/-- In no-crop mode the fresh save task's own valid area is unset, so the
`has_valid_area()` guard is false and the input always passes through. -/
theorem saveimg_nocrop_passthrough (img : Mat) (input_valid : Rect) :
    saveimg_task_geometry img input_valid true =
      (img, valid_area input_valid img) := by
  unfold SaveImg.saveimg_task_geometry SaveImg.saveimg_geometry
  simp [ImgTask.has_valid_area]

/-- Claim C1 (code bug): in no-crop mode, with an input whose valid region
(1,1,2,2) is strictly smaller than its 4×4 buffer, the task keeps the whole
4×4 buffer and the input's valid area, instead of producing the 2×2 extracted
region with valid area (0,0,2,2): the guard reads the save task's own unset
valid area instead of the input's. -/
theorem saveimg_nocrop_bug :
    (saveimg_task_geometry bugMat bugRect true).1 = bugMat ∧
    (saveimg_task_geometry bugMat bugRect true).2 = bugRect ∧
    (saveimg_task_geometry bugMat bugRect true).1.rows = 4 ∧
    ¬ ((saveimg_task_geometry bugMat bugRect true).1.rows = 2 ∧
       (saveimg_task_geometry bugMat bugRect true).2 = ⟨0, 0, 2, 2⟩) := by
  refine ⟨rfl, rfl, rfl, by decide⟩

/-- Claim C8: the save task performs file output exactly for a filename that
is neither empty nor the ":memory:" sentinel, encoding the composited result
at the configured quality; otherwise no file I/O happens. -/
theorem saveimg_file_output_iff (fn : String) (q : Int) (m : Mat) :
    (fn ≠ "" ∧ fn ≠ ":memory:" →
      saveimg_file_output fn q m = some (fn, q, m)) ∧
    ((fn = "" ∨ fn = ":memory:") → saveimg_file_output fn q m = none) := by
  unfold SaveImg.saveimg_file_output
  constructor
  · intro h
    rw [if_pos h]
  · intro h
    rw [if_neg (fun hc => h.elim hc.1 hc.2)]

/-- Witness for C8: a real path is written, the sentinel is not. -/
theorem saveimg_file_output_iff_witness :
    saveimg_file_output "out.jpg" 95 demoMat = some ("out.jpg", 95, demoMat) ∧
    saveimg_file_output ":memory:" 95 demoMat = none :=
  ⟨(saveimg_file_output_iff "out.jpg" 95 demoMat).1 ⟨by decide, by decide⟩,
   (saveimg_file_output_iff ":memory:" 95 demoMat).2 (Or.inr rfl)⟩

/-! ## Task_LoadImg readiness -/

/-- Claim C6: the `ready_to_run` override never loosens the base dependency
check, and while a positive wait window has not elapsed it also demands a
readable target file. -/
theorem loadimg_ready_to_run_spec (c : ReadyCtx) :
    (loadimg_ready_to_run c = true →
      task_ready_to_run c.deps_completed = true) ∧
    (0 < c.wait_images → c.now_lt_deadline = true → c.file_good = false →
      loadimg_ready_to_run c = false) := by
  unfold LoadImg.loadimg_ready_to_run
  constructor
  · intro h
    by_contra hb
    rw [if_pos hb] at h
    exact Bool.false_ne_true h
  · intro hq hn hf
    by_cases h1 : task_ready_to_run c.deps_completed = true
    · rw [if_neg (not_not_intro h1), if_pos ⟨hq, hn, by simp [hf]⟩]
    · rw [if_pos h1]

/-- Witness for C6: a not-yet-readable file blocks a 2-second window; with no
window the base check decides. -/
theorem loadimg_ready_to_run_spec_witness :
    loadimg_ready_to_run ⟨[true], 2, true, false⟩ = false ∧
    task_ready_to_run [true, true] = true :=
  ⟨(loadimg_ready_to_run_spec ⟨[true], 2, true, false⟩).2 (by norm_num) rfl rfl,
   (loadimg_ready_to_run_spec ⟨[true, true], 0, false, true⟩).1 (by decide)⟩

/-! ## Task_LoadImg padding -/

theorem reflectIdx_id (r len : Nat) (h : r < len) :
    reflectIdx (r : Int) len = r := by
  unfold LoadImg.reflectIdx
  have hlen : ¬ (len = 0) := by omega
  rw [if_neg hlen]
  have hmod : ((r : Int)) % (2 * (len : Int)) = (r : Int) :=
    Int.emod_eq_of_lt (by positivity) (by push_cast; omega)
  dsimp only
  rw [hmod, Int.toNat_natCast, if_pos h]

theorem copyMakeBorderReflect_interior (src : Mat)
    (top bottom left right r c : Nat) (hr : r < src.rows) (hc : c < src.cols) :
    (copyMakeBorderReflect src top bottom left right).pix (top + r) (left + c) =
      src.pix r c := by
  unfold LoadImg.copyMakeBorderReflect
  dsimp only
  have h1 : ((top + r : Nat) : Int) - (top : Int) = (r : Int) := by
    push_cast
    ring
  have h2 : ((left + c : Nat) : Int) - (left : Int) = (c : Int) := by
    push_cast
    ring
  rw [h1, h2, reflectIdx_id r _ hr, reflectIdx_id c _ hc]

/-- Claim C3: when the wavelet-required size exceeds the decoded size, the
padded buffer has exactly the expanded dimensions, the valid region sits at
`(expand_x/2, expand_y/2)` with the original width and height, and on each
axis the two borders differ by at most one pixel (the far side gets the extra
one). -/
theorem loadimg_pad_geometry (orig : Mat) (ew eh : Nat)
    (hw : orig.cols ≤ ew) (hh : orig.rows ≤ eh)
    (hne : ew ≠ orig.cols ∨ eh ≠ orig.rows) :
    (loadimg_pad orig ew eh).1.cols = ew ∧
    (loadimg_pad orig ew eh).1.rows = eh ∧
    (loadimg_pad orig ew eh).2 =
      ⟨(((ew - orig.cols) / 2 : Nat) : Int), (((eh - orig.rows) / 2 : Nat) : Int),
       (orig.cols : Int), (orig.rows : Int)⟩ ∧
    (0 ≤ (ew : Int) - orig.cols - 2 * (loadimg_pad orig ew eh).2.x ∧
      (ew : Int) - orig.cols - 2 * (loadimg_pad orig ew eh).2.x ≤ 1) ∧
    (0 ≤ (eh : Int) - orig.rows - 2 * (loadimg_pad orig ew eh).2.y ∧
      (eh : Int) - orig.rows - 2 * (loadimg_pad orig ew eh).2.y ≤ 1) := by
  unfold LoadImg.loadimg_pad
  rw [if_pos hne]
  unfold LoadImg.copyMakeBorderReflect
  dsimp only
  refine ⟨by omega, by omega, rfl, ⟨by omega, by omega⟩, ⟨by omega, by omega⟩⟩

/-- Witness for C3: a 3×3 source expanded to 6×5. -/
theorem loadimg_pad_geometry_witness :
    (loadimg_pad demoMat 6 5).1.cols = 6 ∧
    (loadimg_pad demoMat 6 5).1.rows = 5 ∧
    (loadimg_pad demoMat 6 5).2 =
      ⟨(((6 - demoMat.cols) / 2 : Nat) : Int), (((5 - demoMat.rows) / 2 : Nat) : Int),
       (demoMat.cols : Int), (demoMat.rows : Int)⟩ ∧
    (0 ≤ (6 : Int) - demoMat.cols - 2 * (loadimg_pad demoMat 6 5).2.x ∧
      (6 : Int) - demoMat.cols - 2 * (loadimg_pad demoMat 6 5).2.x ≤ 1) ∧
    (0 ≤ (5 : Int) - demoMat.rows - 2 * (loadimg_pad demoMat 6 5).2.y ∧
      (5 : Int) - demoMat.rows - 2 * (loadimg_pad demoMat 6 5).2.y ≤ 1) :=
  loadimg_pad_geometry demoMat 6 5 (by decide) (by decide)
    (Or.inl (by decide))

theorem eqPix_refl (a : Mat) : a.eqPix a :=
  ⟨rfl, rfl, fun _ _ _ _ => rfl⟩

theorem extract_interior_eqPix (img target : Mat) (x y : Nat)
    (hw : 0 < target.cols) (hh : 0 < target.rows)
    (hx : x + target.cols ≤ img.cols) (hy : y + target.rows ≤ img.rows)
    (hne : ¬ ((x : Int) = 0 ∧ (y : Int) = 0 ∧
      (target.cols : Int) = (img.cols : Int) ∧
      (target.rows : Int) = (img.rows : Int)))
    (hpix : ∀ r < target.rows, ∀ c < target.cols,
      img.pix (y + r) (x + c) = target.pix r c) :
    (extract_original_area
      ⟨(x : Int), (y : Int), (target.cols : Int), (target.rows : Int)⟩
      img).eqPix target := by
  have hval : has_valid_area
      ⟨(x : Int), (y : Int), (target.cols : Int), (target.rows : Int)⟩ = true := by
    simp only [ImgTask.has_valid_area, Bool.and_eq_true, bne_iff_ne, ne_eq]
    omega
  unfold ImgTask.extract_original_area
  rw [if_neg (not_not_intro hval), if_neg hne]
  have hsafe : safeRect
      ⟨(x : Int), (y : Int), (target.cols : Int), (target.rows : Int)⟩ img =
      ⟨(x : Int), (y : Int), (target.cols : Int), (target.rows : Int)⟩ := by
    unfold ImgTask.safeRect
    dsimp only
    simp only [Rect.mk.injEq]
    refine ⟨?_, ?_, ?_, ?_⟩ <;> omega
  rw [hsafe]
  refine ⟨?_, ?_, ?_⟩
  · simp [ImgTask.cropClone]
  · simp [ImgTask.cropClone]
  · intro r hr c hc
    simp only [ImgTask.cropClone, Int.toNat_natCast] at hr hc ⊢
    exact hpix r hr c hc

/-- Claim C2 (round-trip): padding a decoded image for the wavelet size and
then extracting the original area with the valid region set by the load task
reproduces the decoded pixels exactly. -/
theorem loadimg_roundtrip (orig : Mat) (ew eh : Nat)
    (h0r : 0 < orig.rows) (h0c : 0 < orig.cols)
    (hw : orig.cols ≤ ew) (hh : orig.rows ≤ eh) :
    (extract_original_area (loadimg_pad orig ew eh).2
      (loadimg_pad orig ew eh).1).eqPix orig := by
  by_cases hcond : ew ≠ orig.cols ∨ eh ≠ orig.rows
  · unfold LoadImg.loadimg_pad
    rw [if_pos hcond]
    dsimp only
    apply extract_interior_eqPix _ _ _ _ h0c h0r
    · show (ew - orig.cols) / 2 + orig.cols ≤
        (copyMakeBorderReflect orig _ _ _ _).cols
      unfold LoadImg.copyMakeBorderReflect
      dsimp only
      omega
    · show (eh - orig.rows) / 2 + orig.rows ≤
        (copyMakeBorderReflect orig _ _ _ _).rows
      unfold LoadImg.copyMakeBorderReflect
      dsimp only
      omega
    · rintro ⟨-, -, hwid, hht⟩
      unfold LoadImg.copyMakeBorderReflect at hwid hht
      dsimp only at hwid hht
      rcases hcond with h | h <;> omega
    · intro r hr c hc
      exact copyMakeBorderReflect_interior orig _ _ _ _ r c hr hc
  · push_neg at hcond
    unfold LoadImg.loadimg_pad
    rw [if_neg (fun hor => hor.elim (fun hn => hn hcond.1) (fun hn => hn hcond.2))]
    dsimp only
    unfold ImgTask.extract_original_area
    rw [if_neg (not_not_intro (by
      simp only [ImgTask.has_valid_area, Bool.and_eq_true, bne_iff_ne, ne_eq]
      omega))]
    rw [if_pos ⟨rfl, rfl, rfl, rfl⟩]
    exact eqPix_refl orig

/-- Witness for C2: a 3×3 source padded to 6×5 and extracted again. -/
theorem loadimg_roundtrip_witness :
    (extract_original_area (loadimg_pad demoMat 6 5).2
      (loadimg_pad demoMat 6 5).1).eqPix demoMat :=
  loadimg_roundtrip demoMat 6 5 (by decide) (by decide) (by decide) (by decide)

/-! ## Task_LoadImg decode retry loop -/

theorem loadLoop_some (imread : Int → Option Mat) (deadline t : Int) (m : Mat) :
    loadLoop imread deadline t (some m) = (t, some m) := by
  rw [loadLoop]

theorem loadLoop_none_step (imread : Int → Option Mat) (deadline t : Int)
    (ht : t < deadline) :
    loadLoop imread deadline t none =
      loadLoop imread deadline (t + 100) (imread (t + 100)) := by
  rw [loadLoop]
  rw [dif_pos ht]

theorem loadLoop_none_stop (imread : Int → Option Mat) (deadline t : Int)
    (ht : ¬ t < deadline) :
    loadLoop imread deadline t none = (t, none) := by
  rw [loadLoop]
  rw [dif_neg ht]

theorem loadLoop_allnone (imread : Int → Option Mat) (deadline : Int)
    (h : ∀ u : Int, imread u = none) :
    ∀ (n : Nat) (t : Int), (deadline - t).toNat ≤ n →
      (loadLoop imread deadline t none).2 = none := by
  intro n
  induction n with
  | zero =>
    intro t hn
    rw [loadLoop_none_stop _ _ _ (by omega)]
  | succ n ih =>
    intro t hn
    by_cases ht : t < deadline
    · rw [loadLoop_none_step _ _ _ ht, h (t + 100)]
      exact ih (t + 100) (by omega)
    · rw [loadLoop_none_stop _ _ _ ht]

theorem loadLoop_grid_success (imread : Int → Option Mat) (deadline : Int)
    (m : Mat) :
    ∀ (j : Nat) (t0 : Int),
      (∀ k, k < j → imread (attemptTime t0 k) = none) →
      (∀ k, k < j → attemptTime t0 k < deadline) →
      imread (attemptTime t0 j) = some m →
      (loadLoop imread deadline t0 (imread t0)).2 = some m := by
  intro j
  induction j with
  | zero =>
    intro t0 hfail hin hsucc
    have h0 : attemptTime t0 0 = t0 := by
      unfold LoadImg.attemptTime
      simp
    rw [h0] at hsucc
    rw [hsucc, loadLoop_some]
  | succ j ih =>
    intro t0 hfail hin hsucc
    have h0 : attemptTime t0 0 = t0 := by
      unfold LoadImg.attemptTime
      simp
    have hstart : imread t0 = none := by
      rw [← h0]
      exact hfail 0 (Nat.succ_pos j)
    have hshift : ∀ k : Nat, attemptTime t0 (k + 1) = attemptTime (t0 + 100) k := by
      intro k
      unfold LoadImg.attemptTime
      push_cast
      ring
    have ht0 : t0 < deadline := by
      have := hin 0 (Nat.succ_pos j)
      rwa [h0] at this
    rw [hstart, loadLoop_none_step _ _ _ ht0]
    exact ih (t0 + 100)
      (fun k hk => by rw [← hshift k]; exact hfail (k + 1) (by omega))
      (fun k hk => by rw [← hshift k]; exact hin (k + 1) (by omega))
      (by rw [← hshift j]; exact hsucc)

theorem loadimg_decode_ok (imread : Int → Option Mat) (deadline t0 : Int)
    (fn : String) (m : Mat)
    (h : (loadLoop imread deadline t0 (imread t0)).2 = some m) :
    loadimg_decode imread deadline t0 fn = Except.ok m := by
  unfold LoadImg.loadimg_decode
  dsimp only
  rw [h]

theorem loadimg_decode_err (imread : Int → Option Mat) (deadline t0 : Int)
    (fn : String)
    (h : (loadLoop imread deadline t0 (imread t0)).2 = none) :
    loadimg_decode imread deadline t0 fn =
      Except.error ("Could not load " ++ fn) := by
  unfold LoadImg.loadimg_decode
  dsimp only
  rw [h]

/-- Claim C5: if the target never decodes, `task()` fails with the error
naming the path; and failed attempts are retried at times `t0 + 100·k` (the
fixed 100 ms interval) while before the deadline, so a decode first
succeeding at the j-th retry inside the window yields that image. -/
theorem loadimg_decode_spec (imread : Int → Option Mat) (deadline t0 : Int)
    (fn : String) :
    ((∀ u : Int, imread u = none) →
      loadimg_decode imread deadline t0 fn =
        Except.error ("Could not load " ++ fn)) ∧
    (∀ (j : Nat) (m : Mat),
      (∀ k, k < j → imread (attemptTime t0 k) = none) →
      (∀ k, k < j → attemptTime t0 k < deadline) →
      imread (attemptTime t0 j) = some m →
      loadimg_decode imread deadline t0 fn = Except.ok m) := by
  constructor
  · intro h
    refine loadimg_decode_err _ _ _ _ ?_
    rw [h t0]
    exact loadLoop_allnone _ _ h ((deadline - t0).toNat) t0 le_rfl
  · intro j m hfail hin hsucc
    exact loadimg_decode_ok _ _ _ _ _
      (loadLoop_grid_success _ _ _ j t0 hfail hin hsucc)

/-- Witness for C5: a path that never decodes fails with the path-naming
error after a 1000 ms window; a decode first succeeding at t = 200, the
second retry, is returned. -/
theorem loadimg_decode_spec_witness :
    loadimg_decode (fun _ => none) 1000 0 "missing.jpg" =
      Except.error ("Could not load " ++ "missing.jpg") ∧
    loadimg_decode (fun u => if u = 200 then some demoMat else none)
        1000 0 "late.jpg" =
      Except.ok demoMat :=
  ⟨(loadimg_decode_spec (fun _ => none) 1000 0 "missing.jpg").1 (fun _ => rfl),
   (loadimg_decode_spec (fun u => if u = 200 then some demoMat else none)
       1000 0 "late.jpg").2 2 demoMat
     (fun k hk => by interval_cases k <;> rfl)
     (fun k hk => by interval_cases k <;> decide)
     rfl⟩

/-! ## Worker scheduler -/

theorem two_le_length_of_mem {α : Type} [DecidableEq α] {l : List α}
    {a b : α} (ha : a ∈ l) (hb : b ∈ l) (hne : a ≠ b) : 2 ≤ l.length :=
  le_trans
    (Finset.one_lt_card.mpr
      ⟨a, List.mem_toFinset.mpr ha, b, List.mem_toFinset.mpr hb, hne⟩)
    l.toFinset_card_le

theorem winv_step {cap : Nat} {s u : WState} (hs : WInv cap s)
    (h : WStep cap s u) : WInv cap u := by
  rcases hs with ⟨h1, h2⟩
  cases h with
  | start t pre post hq hready hcap =>
    constructor
    · by_cases ho : t.opencl = true <;>
        simp [WInv, List.filter_cons, ho, h1]
    · by_cases ho : t.opencl = true
      · have hx := hcap ho
        simp only [WState.opencl_users, ho, if_pos]
        omega
      · simpa [ho] using h2
  | finish t pre post hr =>
    rw [hr] at h1
    constructor
    · simp only [List.filter_append, List.filter_cons, List.length_append]
        at h1 ⊢
      by_cases ho : t.opencl = true <;> simp [ho] at h1 ⊢ <;> omega
    · exact le_trans (Nat.sub_le _ _) h2

theorem winv_reachable {cap : Nat} {s u : WState} (hs : WInv cap s)
    (h : Reachable cap s u) : WInv cap u := by
  induction h with
  | refl => exact hs
  | step hr hstep ih => exact winv_step ih hstep

/-- Claim C9: with a resource cap of 1, in every reachable scheduler state
two running OpenCL-using tasks coincide, and the resource counter never
exceeds the cap. -/
theorem worker_opencl_cap_one (tasks : List WTask) (s : WState)
    (h : Reachable 1 (initState tasks) s) (t1 t2 : WTask)
    (h1 : t1 ∈ s.running) (h2 : t2 ∈ s.running)
    (ho1 : t1.opencl = true) (ho2 : t2.opencl = true) :
    t1 = t2 ∧ s.opencl_users ≤ 1 := by
  have hinv := winv_reachable ⟨rfl, Nat.zero_le 1⟩ h
  refine ⟨?_, hinv.2⟩
  by_contra hne
  have hm1 : t1 ∈ s.running.filter (fun t => t.opencl) :=
    List.mem_filter.mpr ⟨h1, ho1⟩
  have hm2 : t2 ∈ s.running.filter (fun t => t.opencl) :=
    List.mem_filter.mpr ⟨h2, ho2⟩
  have hlen := two_le_length_of_mem hm1 hm2 hne
  have hcount := hinv.1
  have hcap := hinv.2
  omega

/-- Witness for C9: after the scheduler starts the first of two independent
OpenCL tasks, that reachable state satisfies the property. -/
theorem worker_opencl_cap_one_witness :
    tA = tA ∧ (⟨[tB], [tA], [], 1⟩ : WState).opencl_users ≤ 1 :=
  worker_opencl_cap_one [tA, tB] ⟨[tB], [tA], [], 1⟩
    (Reachable.step (Reachable.refl _)
      (WStep.start (initState [tA, tB]) tA [] [tB] rfl rfl
        (fun _ => Nat.one_pos)))
    tA tA (by decide) (by decide) rfl rfl

end FocusStack
